import Mathlib

/-!
Verification development for the restaurant DM automation repository.

The definitions below are a shallow embedding of the messaging core of
`src/steps/src/send-dm.ts` (the standalone campaign script) and
`src/steps/send-dm.step.ts` (the event-step handler).  The persisted
send-history file `messaged_restaurants.json` has the JSON shape
`{ day: { hourKey: { restaurantName: true } } }`; JSON objects are modelled
as association lists that keep key-insertion order, with the innermost
object modelled as the list of its keys (the stored value is always the
literal `true`).  Wall-clock time is passed explicitly: a run is modelled
at a fixed `today` / `currentHour`, matching a run that does not cross an
hour boundary.  The external browser platform (the Deliverer) is an
oracle `deliver : Nat -> Bool` giving the outcome of the k-th delivery
attempt of the run, and the health of the backing store on writes is the
flag `recordOk`.
-/

namespace SendDM

/-- Names stored under one hour bucket: the key set of the innermost JSON
object of `messaged_restaurants.json`. -/
abbrev HourBucket := List String

/-- One day's data: hour-bucket key (e.g. "14h") to the names messaged in
that hour. -/
abbrev DayMap := List (String × HourBucket)

/-- The whole `messaged_restaurants.json` file: date key ("YYYY-MM-DD") to
that day's map. -/
abbrev Store := List (String × DayMap)

/-- JS object property access `obj[key]`: first binding wins (JSON objects
have distinct keys). -/
def assocFind {β : Type} : List (String × β) → String → Option β
  | [], _ => none
  | (k, v) :: rest, key => if k = key then some v else assocFind rest key

/-- Membership of a name in an hour bucket (`obj[name]` truthiness: the
stored value is always `true`). -/
def namesContain : List String → String → Bool
  | [], _ => false
  | x :: xs, n => if x = n then true else namesContain xs n

/-- JS `data[today][hk][name] = true` on the innermost object: setting an
existing key keeps its position, a new key is appended. -/
def insertName (ns : List String) (n : String) : List String :=
  if namesContain ns n then ns else ns ++ [n]

/-- Update (or lazily create) the hour bucket `hk` of a day map, marking
`n` messaged, per `saveMessagedRestaurant`. -/
def setHour : DayMap → String → String → DayMap
  | [], hk, n => [(hk, insertName [] n)]
  | (k, ns) :: rest, hk, n =>
    if k = hk then (k, insertName ns n) :: rest else (k, ns) :: setHour rest hk n

/-- The pure store update performed by `saveMessagedRestaurant` in
`src/steps/src/send-dm.ts` lines 575-605: initialize `data[today]` and
`data[today][hourKey]` if needed, then set
`data[today][hourKey][name] = true`. -/
def recordMessaged : Store → String → String → String → Store
  | [], d, hk, n => [(d, setHour [] hk n)]
  | (k, dm) :: rest, d, hk, n =>
    if k = d then (k, setHour dm hk n) :: rest else (k, dm) :: recordMessaged rest d hk n

/-- A sequence of further `saveMessagedRestaurant` writes (each a
`(day, hourKey, name)` triple), e.g. the records written by later runs. -/
def applyRecords (st : Store) (ops : List (String × String × String)) : Store :=
  ops.foldl (fun s op => recordMessaged s op.1 op.2.1 op.2.2) st

/-- Scan one day's hour buckets for a name (`for hour in data[day]`). -/
def dayHasName : DayMap → String → Bool
  | [], _ => false
  | (_, ns) :: rest, n => namesContain ns n || dayHasName rest n

/-- `isRestaurantMessaged` (`src/steps/src/send-dm.ts` lines 608-628 and
`send-dm.step.ts` lines 630-649): scan all days and hours of the store for
the restaurant name. -/
def isRestaurantMessaged : Store → String → Bool
  | [], _ => false
  | (_, dm) :: rest, n => dayHasName dm n || isRestaurantMessaged rest n

/-- Result of `getMessageCounts`. -/
structure Counts where
  hourly : Nat
  daily : Nat
deriving DecidableEq, Repr

/-- The loop body of `getMessageCounts` over `data[today]`: accumulate the
daily total and set the hourly count on the entry whose key equals the
current hour key. -/
def countsGo (currentHourKey : String) : DayMap → Counts → Counts
  | [], acc => acc
  | (hk, ns) :: rest, acc =>
    countsGo currentHourKey rest
      { daily := acc.daily + ns.length
        hourly := if hk = currentHourKey then ns.length else acc.hourly }

/-- `getMessageCounts` (`src/steps/src/send-dm.ts` lines 537-572 and
`send-dm.step.ts` lines 560-593): counts are computed against the current
wall-clock date and hour; a date with no entry yields zero for both. -/
def getMessageCounts (st : Store) (today : String) (currentHour : Nat) : Counts :=
  let currentHourKey := toString currentHour ++ "h"
  match assocFind st today with
  | none => ⟨0, 0⟩
  | some dm => countsGo currentHourKey dm ⟨0, 0⟩

/-- Outcome of reading the history file: it may be absent, unreadable or
invalid JSON (`corrupt`, the paths on which the try block throws), or
parse to a store. -/
inductive FileRead where
  | missing : FileRead
  | corrupt : FileRead
  | ok : Store → FileRead

/-- An exception escaping a catch block: in `send-dm.step.ts` the catch
blocks of `getMessageCounts` (line 590), `saveMessagedRestaurant` (line
625) and `isRestaurantMessaged` (line 646) call `logger.error`, but no
module-scope `logger` exists in that file — the catch itself throws a
ReferenceError. -/
inductive JsError where
  | referenceError : JsError
deriving DecidableEq, Repr

/-- `isRestaurantMessaged` of the standalone script
(`src/steps/src/send-dm.ts`) including its file handling: a missing file
falls through to `return false`, and a read/parse error is caught
(`console.error`) and yields `false`. -/
def isRestaurantMessagedFile : FileRead → String → Bool
  | .missing, _ => false
  | .corrupt, _ => false
  | .ok st, n => isRestaurantMessaged st n

/-- `getMessageCounts` of the standalone script including its file
handling: a missing file leaves the zero result, and a read/parse error
is caught (`console.error`) and yields zeros. -/
def getMessageCountsFile : FileRead → String → Nat → Counts
  | .missing, _, _ => ⟨0, 0⟩
  | .corrupt, _, _ => ⟨0, 0⟩
  | .ok st, d, h => getMessageCounts st d h

/-- `isRestaurantMessaged` of the step handler (`send-dm.step.ts` lines
630-649) including its file handling: a missing file still returns
`false`, but on a read/parse error the catch block itself throws
(`logger` is not defined at module scope), so the error escapes instead
of yielding `false`. -/
def isRestaurantMessagedFileStep : FileRead → String → Except JsError Bool
  | .missing, _ => .ok false
  | .corrupt, _ => .error .referenceError
  | .ok st, n => .ok (isRestaurantMessaged st n)

/-- `getMessageCounts` of the step handler (`send-dm.step.ts` lines
560-593) including its file handling: a missing file still yields zeros,
but on a read/parse error the catch block itself throws (`logger` is not
defined at module scope), so the `return { hourly: 0, daily: 0 }` after
it is never reached. -/
def getMessageCountsFileStep : FileRead → String → Nat → Except JsError Counts
  | .missing, _, _ => .ok ⟨0, 0⟩
  | .corrupt, _, _ => .error .referenceError
  | .ok st, d, h => .ok (getMessageCounts st d h)

/-- Character class `[A-Za-z0-9_.]` of the Instagram username regexes. -/
def isHandleChar (c : Char) : Bool :=
  c.isAlphanum || c = '_' || c = '.'

/-- JS `url.replace(/\/+$/, "")`: drop trailing slashes. -/
def stripTrailingSlashes (s : List Char) : List Char :=
  (s.reverse.dropWhile (fun c => c = '/')).reverse

/-- Literal-prefix test on character lists. -/
def startsWithChars : List Char → List Char → Bool
  | [], _ => true
  | _ :: _, [] => false
  | p :: ps, c :: cs => p = c && startsWithChars ps cs

/-- The first pattern of `extractInstagramUsername` in
`src/steps/src/send-dm.ts`: an end-anchored match of the literal
`instagram.com/` followed by a nonempty run of handle characters (the
optional final slash was already stripped).  The run must extend to the
end of the string, so it is the maximal handle-character suffix, and the
literal must sit immediately before it. -/
def pat1 (s : List Char) : Option (List Char) :=
  let rev := s.reverse
  let run := rev.takeWhile isHandleChar
  if run.isEmpty then none
  else if startsWithChars "instagram.com/".data.reverse (rev.drop run.length) then
    some run.reverse
  else none

/-- The second pattern (language-parameter URLs): scanning left to right
for the literal `instagram.com/`, then a nonempty handle run, then the
literal `/?hl=`, then at least one character running to the end with no
newline (the dot of the regex does not match a newline). -/
def pat2 : List Char → Option (List Char)
  | [] => none
  | c :: rest =>
    let s := c :: rest
    if startsWithChars "instagram.com/".data s then
      let afterLit := s.drop "instagram.com/".data.length
      let run := afterLit.takeWhile isHandleChar
      let tail := afterLit.drop run.length
      if !run.isEmpty && startsWithChars "/?hl=".data tail
          && !(tail.drop 5).isEmpty && (tail.drop 5).all (fun ch => ch ≠ '\n') then
        some run
      else pat2 rest
    else pat2 rest

/-- The third pattern (location pages): the literal
`instagram.com/explore/locations/`, then a nonempty newline-free capture,
then a final slash at the very end.  After the trailing-slash strip this
pattern can never fire, but it is part of the source function. -/
def pat3 : List Char → Option (List Char)
  | [] => none
  | c :: rest =>
    let s := c :: rest
    if startsWithChars "instagram.com/explore/locations/".data s then
      let t := s.drop "instagram.com/explore/locations/".data.length
      if t.getLast? = some '/' && !t.dropLast.isEmpty
          && t.dropLast.all (fun ch => ch ≠ '\n') then
        some t.dropLast
      else pat3 rest
    else pat3 rest

/-- `extractInstagramUsername` of `src/steps/src/send-dm.ts` lines
106-127: a falsy (empty) URL yields null; otherwise trailing slashes are
stripped and the three patterns are tried in order. -/
def extractInstagramUsername (url : String) : Option String :=
  if url = "" then none
  else
    let s := stripTrailingSlashes url.data
    match pat1 s with
    | some r => some (String.mk r)
    | none =>
      match pat2 s with
      | some r => some (String.mk r)
      | none => (pat3 s).map String.mk

/-- `extractInstagramUsername` of `src/steps/send-dm.step.ts` lines
553-557: the single unanchored pattern, first occurrence of the literal
`instagram.com/` followed by a nonempty maximal handle run. -/
def stepScan : List Char → Option (List Char)
  | [] => none
  | c :: rest =>
    let s := c :: rest
    if startsWithChars "instagram.com/".data s then
      let run := (s.drop "instagram.com/".data.length).takeWhile isHandleChar
      if run.isEmpty then stepScan rest else some run
    else stepScan rest

/-- Step-handler variant of the username extraction. -/
def extractInstagramUsernameStep (url : String) : Option String :=
  if url = "" then none else (stepScan url.data).map String.mk

/-- A restaurant entry as the messaging code sees it: the `name` field and
`socialMedia?.instagram`; `none` models an absent (or falsy) Instagram
URL. -/
structure Rest where
  name : String
  instagram : Option String
deriving DecidableEq, Repr

/-- `generateMessage`: the single variant, personalised with the first
word of the restaurant name. -/
def generateMessage (r : Rest) : String :=
  let firstWord := (r.name.splitOn " ").headD ""
  "Hello from Zoe! I help restaurants like " ++ firstWord ++
    " handle up to 100 calls a day, 30 at once, and send orders straight to your CRM, POS, or kitchen printer. Would you like to see a 60-second demo?"

/-- Source constant `MAX_HOURLY_MESSAGES` (also the literal 25 used by the
run loops). -/
def MAX_HOURLY_MESSAGES : Nat := 25

/-- Source constant `MAX_DAILY_MESSAGES` (also the literal 100 used by the
run loops). -/
def MAX_DAILY_MESSAGES : Nat := 100

/-- The externals of a run: the Deliverer oracle (`deliver k` is the
outcome of the k-th delivery attempt of the run — `false` also covers an
attempt whose error was caught inside `sendMessage`), whether writes to
the history file succeed, and whether browser init / login succeed. -/
structure Env where
  deliver : Nat → Bool
  recordOk : Bool
  initOk : Bool
  loginOk : Bool

/-- Mutable state threaded through the standalone script's run: the
history file contents, the `InstagramAutomation.dailyMessageCount` field,
and an instrumentation counter of delivery attempts made so far. -/
structure RunState where
  store : Store
  dailyMessageCount : Nat
  attempts : Nat
deriving DecidableEq, Repr

/-- `InstagramAutomation.sendMessage` of `src/steps/src/send-dm.ts`: if
`dailyMessageCount` has reached `MAX_DAILY_MESSAGES` it returns false
without an attempt; otherwise one delivery attempt is made, and on success
`dailyMessageCount` is incremented (a thrown error is caught and yields
false). -/
def sendMessage (env : Env) (rs : RunState) (_username _message : String) : Bool × RunState :=
  if MAX_DAILY_MESSAGES ≤ rs.dailyMessageCount then (false, rs)
  else
    let ok := env.deliver rs.attempts
    let rs1 : RunState := { rs with attempts := rs.attempts + 1 }
    if ok then (true, { rs1 with dailyMessageCount := rs1.dailyMessageCount + 1 })
    else (false, rs1)

/-- The per-candidate retry loop `while (!success && retryCount < 2)` of
the standalone script (lines 713-725), unrolled: at most two
`sendMessage` calls. -/
def sendWithRetries (env : Env) (rs : RunState) (username message : String) : Bool × RunState :=
  let r1 := sendMessage env rs username message
  if r1.1 then r1
  else sendMessage env r1.2 username message

/-- `saveMessagedRestaurant` of the standalone script
(`src/steps/src/send-dm.ts` lines 575-605) with its error handling: a
failing read or write is caught and logged with `console.error`, leaving
the file unchanged, and the function returns normally either way. -/
def saveMessagedRestaurant (env : Env) (st : Store) (today hourKey name : String) : Store :=
  if env.recordOk then recordMessaged st today hourKey name else st

/-- `saveMessagedRestaurant` of the step handler (`send-dm.step.ts` lines
595-627): on a failing read or write the catch block calls
`logger.error` with no module-scope `logger` in that file, so the catch
itself throws a ReferenceError and the error escapes to the caller. -/
def saveMessagedRestaurantStep (env : Env) (st : Store) (today hourKey name : String) :
    Except JsError Store :=
  if env.recordOk then .ok (recordMessaged st today hourKey name)
  else .error .referenceError

/-- Loop state of the per-location restaurant loop of the standalone
script: `locationDMCount` and `currentHourlyCount` (both location-local in
the source), and a flag recording that the loop was exited with `break`. -/
structure LocIter where
  rs : RunState
  locationDMCount : Nat
  currentHourlyCount : Nat
  stopped : Bool
deriving DecidableEq, Repr

/-- One iteration of the restaurant loop of the standalone script (lines
672-739): break on the hourly or batch limit, skip entries with no
Instagram URL, already-messaged names, and unparseable usernames; then
try to send with retries and, only on success, save the record and bump
the location and hourly counters. -/
def processRestaurant (env : Env) (today hourKey : String) (batchLimit : Nat)
    (it : LocIter) (entry : String × Rest) : LocIter :=
  if it.stopped then it
  else if MAX_HOURLY_MESSAGES ≤ it.currentHourlyCount then { it with stopped := true }
  else if batchLimit ≤ it.locationDMCount then { it with stopped := true }
  else
    match entry.2.instagram with
    | none => it
    | some url =>
      if isRestaurantMessaged it.rs.store entry.1 then it
      else
        match extractInstagramUsername url with
        | none => it
        | some username =>
          let message := generateMessage entry.2
          match sendWithRetries env it.rs username message with
          | (true, rs1) =>
            { rs := { rs1 with
                        store := saveMessagedRestaurant env rs1.store today hourKey entry.1 }
              locationDMCount := it.locationDMCount + 1
              currentHourlyCount := it.currentHourlyCount + 1
              stopped := it.stopped }
          | (false, rs1) => { it with rs := rs1 }

/-- One location of the standalone script's outer loop (lines 664-742):
`locationDMCount` restarts at 0 and `currentHourlyCount` restarts at the
pre-run hourly count for every location. -/
def processLocation (env : Env) (today hourKey : String) (batchLimit hourly0 : Nat)
    (rs : RunState) (restaurants : List (String × Rest)) : RunState :=
  (restaurants.foldl (processRestaurant env today hourKey batchLimit)
    { rs := rs, locationDMCount := 0, currentHourlyCount := hourly0, stopped := false }).rs

/-- Observable outcome of the standalone script: the final run state,
whether the run ended by an uncaught error, and whether it ended with the
browser session still open. -/
structure ScriptResult where
  final : RunState
  crashed : Bool
  leakedBrowser : Bool
deriving DecidableEq, Repr

/-- The main IIFE of `src/steps/src/send-dm.ts` (lines 631-748) at a fixed
wall clock: the pre-run limit checks exit before the browser is opened;
otherwise the browser is initialized and logged in, the location loop
runs, and `instagram.close()` is executed only after the loop, with no
try/finally — an error thrown during login therefore ends the run with
the browser still open. -/
def runScript (env : Env) (today : String) (hour : Nat) (store0 : Store)
    (data : List (String × List (String × Rest))) : ScriptResult :=
  let counts := getMessageCounts store0 today hour
  if MAX_HOURLY_MESSAGES ≤ counts.hourly then ⟨⟨store0, 0, 0⟩, false, false⟩
  else if MAX_DAILY_MESSAGES ≤ counts.daily then ⟨⟨store0, 0, 0⟩, false, false⟩
  else
    let batchLimit :=
      min (MAX_HOURLY_MESSAGES - counts.hourly) (MAX_DAILY_MESSAGES - counts.daily)
    let hourKey := toString hour ++ "h"
    if env.loginOk then
      let finalRs := data.foldl
        (fun rs loc => processLocation env today hourKey batchLimit counts.hourly rs loc.2)
        ⟨store0, 0, 0⟩
      ⟨finalRs, false, false⟩
    else ⟨⟨store0, 0, 0⟩, true, true⟩

/-- The eligibility filter of the step handler (`send-dm.step.ts` lines
718-729): walk the location's entries in insertion order and keep
`{name, instagramUrl}` for those with an Instagram URL that are not in the
send history. -/
def selectEligible : List (String × Rest) → Store → List (String × String)
  | [], _ => []
  | (name, r) :: rest, st =>
    match r.instagram with
    | some url =>
      if isRestaurantMessaged st name then selectEligible rest st
      else (name, url) :: selectEligible rest st
    | none => selectEligible rest st

/-- The step-handler class's `sendMessage` has no counter logic of its
own: one delivery attempt whose errors are caught into `false`. -/
def sendMessageStep (env : Env) (attempts : Nat) : Bool × Nat :=
  (env.deliver attempts, attempts + 1)

/-- Loop state of the step handler's send loop. -/
structure HState where
  store : Store
  attempts : Nat
  successCount : Nat
  hourlyCount : Nat
  stopped : Bool
deriving DecidableEq, Repr

/-- One iteration of the step handler's send loop (lines 798-839): break
once `hourlyCount` reaches 25, skip unparseable usernames, make a single
`sendMessage` call, and on success save the record and bump the
counters.  The save call sits inside the per-candidate try: if
`saveMessagedRestaurantStep` throws (its catch references an undefined
`logger`), the error is absorbed by the per-candidate catch — the
counter bumps after the call are skipped and the loop continues. -/
def handlerStep (env : Env) (today hourKey : String) (st : HState)
    (cand : String × String) : HState :=
  if st.stopped then st
  else if MAX_HOURLY_MESSAGES ≤ st.hourlyCount then { st with stopped := true }
  else
    match extractInstagramUsernameStep cand.2 with
    | none => st
    | some _username =>
      match sendMessageStep env st.attempts with
      | (true, att) =>
        match saveMessagedRestaurantStep env st.store today hourKey cand.1 with
        | .ok st2 =>
          { st with
              store := st2
              attempts := att
              successCount := st.successCount + 1
              hourlyCount := st.hourlyCount + 1 }
        | .error _ => { st with attempts := att }
      | (false, att) => { st with attempts := att }

/-- Observable outcome of one step-handler invocation. -/
structure HandlerResult where
  store : Store
  successCount : Nat
  attempts : Nat
  emittedError : Bool
  browserClosed : Bool
deriving DecidableEq, Repr

/-- The handler of `src/steps/send-dm.step.ts` (lines 651-891) at a fixed
wall clock.  Every exit path runs the `finally` block, which closes the
browser: the early returns on the limits and on an empty candidate list,
the catch branch reached when browser init or login throws, and normal
completion of the send loop. -/
def runHandler (env : Env) (location : String) (today : String) (hour : Nat)
    (store0 : Store) (allRestaurants : List (String × List (String × Rest))) :
    HandlerResult :=
  let counts := getMessageCounts store0 today hour
  if MAX_HOURLY_MESSAGES ≤ counts.hourly then ⟨store0, 0, 0, true, true⟩
  else if MAX_DAILY_MESSAGES ≤ counts.daily then ⟨store0, 0, 0, true, true⟩
  else
    let batchLimit :=
      min (MAX_HOURLY_MESSAGES - counts.hourly) (MAX_DAILY_MESSAGES - counts.daily)
    let locationRestaurants := (assocFind allRestaurants location.toLower).getD []
    let toMessage := selectEligible locationRestaurants store0
    if toMessage.isEmpty then ⟨store0, 0, 0, false, true⟩
    else
      let messagesToSend := toMessage.take batchLimit
      if !env.initOk then ⟨store0, 0, 0, true, true⟩
      else if !env.loginOk then ⟨store0, 0, 0, true, true⟩
      else
        let hourKey := toString hour ++ "h"
        let finalSt := messagesToSend.foldl (handlerStep env today hourKey)
          ⟨store0, 0, 0, counts.hourly, false⟩
        ⟨finalSt.store, finalSt.successCount, finalSt.attempts, false, true⟩

lemma namesContain_append (a b : List String) (n : String) :
    namesContain (a ++ b) n = (namesContain a n || namesContain b n) := by
  induction a with
  | nil => simp [namesContain]
  | cons x xs ih =>
    by_cases h : x = n
    · simp [namesContain, h]
    · simp [namesContain, h, ih]

lemma insertName_self (ns : List String) (n : String) :
    namesContain (insertName ns n) n = true := by
  unfold insertName
  by_cases h : namesContain ns n = true
  · simp [h]
  · simp only [Bool.not_eq_true] at h
    simp [h, namesContain_append, namesContain]

lemma insertName_mono (ns : List String) (n m : String)
    (h : namesContain ns m = true) : namesContain (insertName ns n) m = true := by
  unfold insertName
  by_cases hc : namesContain ns n = true
  · simp [hc, h]
  · simp only [Bool.not_eq_true] at hc
    simp [hc, namesContain_append, h]

lemma setHour_self (dm : DayMap) (hk n : String) :
    dayHasName (setHour dm hk n) n = true := by
  induction dm with
  | nil => simp [setHour, dayHasName, insertName_self]
  | cons p rest ih =>
    obtain ⟨k, ns⟩ := p
    by_cases h : k = hk
    · simp [setHour, h, dayHasName, insertName_self]
    · simp [setHour, h, dayHasName, ih]

lemma setHour_mono (dm : DayMap) (hk n m : String)
    (h : dayHasName dm m = true) : dayHasName (setHour dm hk n) m = true := by
  induction dm with
  | nil => simp [dayHasName] at h
  | cons p rest ih =>
    obtain ⟨k, ns⟩ := p
    simp only [dayHasName, Bool.or_eq_true] at h
    by_cases hk' : k = hk
    · rcases h with h | h
      · simp [setHour, hk', dayHasName, insertName_mono _ _ _ h]
      · simp [setHour, hk', dayHasName, h]
    · rcases h with h | h
      · simp [setHour, hk', dayHasName, h]
      · simp [setHour, hk', dayHasName, ih h]

lemma recordMessaged_self (st : Store) (d hk n : String) :
    isRestaurantMessaged (recordMessaged st d hk n) n = true := by
  induction st with
  | nil => simp [recordMessaged, isRestaurantMessaged, setHour_self]
  | cons p rest ih =>
    obtain ⟨k, dm⟩ := p
    by_cases h : k = d
    · simp [recordMessaged, h, isRestaurantMessaged, setHour_self]
    · simp [recordMessaged, h, isRestaurantMessaged, ih]

lemma recordMessaged_mono (st : Store) (d hk n m : String)
    (h : isRestaurantMessaged st m = true) :
    isRestaurantMessaged (recordMessaged st d hk n) m = true := by
  induction st with
  | nil => simp [isRestaurantMessaged] at h
  | cons p rest ih =>
    obtain ⟨k, dm⟩ := p
    simp only [isRestaurantMessaged, Bool.or_eq_true] at h
    by_cases hk' : k = d
    · rcases h with h | h
      · simp [recordMessaged, hk', isRestaurantMessaged, setHour_mono _ _ _ _ h]
      · simp [recordMessaged, hk', isRestaurantMessaged, h]
    · rcases h with h | h
      · simp [recordMessaged, hk', isRestaurantMessaged, h]
      · simp [recordMessaged, hk', isRestaurantMessaged, ih h]

lemma applyRecords_mono (ops : List (String × String × String)) (st : Store) (m : String)
    (h : isRestaurantMessaged st m = true) :
    isRestaurantMessaged (applyRecords st ops) m = true := by
  induction ops generalizing st with
  | nil => exact h
  | cons op rest ih =>
    exact ih _ (recordMessaged_mono _ _ _ _ _ h)

lemma selectEligible_not_contains (leads : List (String × Rest)) (st : Store) (n : String)
    (h : isRestaurantMessaged st n = true) :
    namesContain ((selectEligible leads st).map Prod.fst) n = false := by
  induction leads with
  | nil => simp [selectEligible, namesContain]
  | cons p rest ih =>
    obtain ⟨name, r⟩ := p
    rcases hri : r.instagram with _ | url
    · simpa [selectEligible, hri] using ih
    · by_cases hm : isRestaurantMessaged st name = true
      · simpa [selectEligible, hri, hm] using ih
      · have hne : name ≠ n := by
          intro e
          rw [e, h] at hm
          exact hm rfl
        simpa [selectEligible, hri, hm, namesContain, hne] using ih

/-- Claim C2: after the first recorded successful send to a recipient,
`isRestaurantMessaged` is true for it, stays true under every later
history write (the only mutation the program performs on the history
file), and the recipient never again appears among the candidates the
eligibility filter selects. -/
theorem claim_C2 (st : Store) (d hk n : String)
    (ops : List (String × String × String)) (leads : List (String × Rest)) :
    isRestaurantMessaged (recordMessaged st d hk n) n = true ∧
    isRestaurantMessaged (applyRecords (recordMessaged st d hk n) ops) n = true ∧
    namesContain
      ((selectEligible leads (applyRecords (recordMessaged st d hk n) ops)).map Prod.fst)
      n = false := by
  refine ⟨recordMessaged_self st d hk n, ?_, ?_⟩
  · exact applyRecords_mono _ _ _ (recordMessaged_self st d hk n)
  · exact selectEligible_not_contains _ _ _
      (applyRecords_mono _ _ _ (recordMessaged_self st d hk n))

/-- Claim C10: the send history is keyed by restaurant name alone —
`recordMessaged` (the store update of `saveMessagedRestaurant`) takes no
location, so after a send to name `n` is recorded from any location, the
eligibility filter excludes every lead named `n` in every location's lead
collection (`leadsA` and `leadsB` stand for two different locations). -/
theorem claim_C10 (st : Store) (d hk n : String)
    (leadsA leadsB : List (String × Rest)) :
    isRestaurantMessaged (recordMessaged st d hk n) n = true ∧
    namesContain ((selectEligible leadsA (recordMessaged st d hk n)).map Prod.fst) n
      = false ∧
    namesContain ((selectEligible leadsB (recordMessaged st d hk n)).map Prod.fst) n
      = false :=
  ⟨recordMessaged_self st d hk n,
   selectEligible_not_contains _ _ _ (recordMessaged_self st d hk n),
   selectEligible_not_contains _ _ _ (recordMessaged_self st d hk n)⟩

lemma selectEligible_eq_filterMap (leads : List (String × Rest)) (st : Store) :
    selectEligible leads st = leads.filterMap (fun p =>
      match p.2.instagram with
      | some url => if isRestaurantMessaged st p.1 then none else some (p.1, url)
      | none => none) := by
  induction leads with
  | nil => rfl
  | cons p rest ih =>
    obtain ⟨name, r⟩ := p
    rcases hri : r.instagram with _ | url
    · simp [selectEligible, List.filterMap_cons, hri, ih]
    · by_cases hm : isRestaurantMessaged st name = true
      · simp [selectEligible, List.filterMap_cons, hri, hm, ih]
      · simp [selectEligible, List.filterMap_cons, hri, hm, ih]

lemma selectEligible_names_sublist (leads : List (String × Rest)) (st : Store) :
    List.Sublist ((selectEligible leads st).map Prod.fst) (leads.map Prod.fst) := by
  induction leads with
  | nil => simp [selectEligible]
  | cons p rest ih =>
    obtain ⟨name, r⟩ := p
    rcases hri : r.instagram with _ | url
    · simp only [selectEligible, hri, List.map_cons]
      exact List.Sublist.cons _ ih
    · by_cases hm : isRestaurantMessaged st name = true
      · simp only [selectEligible, hri, if_pos hm, List.map_cons]
        exact List.Sublist.cons _ ih
      · simp only [selectEligible, hri, if_neg hm, List.map_cons]
        exact List.Sublist.cons₂ _ ih

/-- Store for the order-preservation example: only B is in the send
history. -/
def exStoreC8 : Store := recordMessaged [] "2026-10-12" "14h" "B"

/-- Leads A, B, C (in insertion order), each with an Instagram URL. -/
def exLeadsC8 : List (String × Rest) :=
  [("A", ⟨"A", some "https://instagram.com/a_handle"⟩),
   ("B", ⟨"B", some "https://instagram.com/b_handle"⟩),
   ("C", ⟨"C", some "https://instagram.com/c_handle"⟩)]

/-- Claim C8: the candidates selected for messaging are exactly the
order-preserving subsequence of the lead collection keeping the entries
with an Instagram URL that are not in the send history (an order-free
`filterMap` of the input, hence no re-sorting, and the selected names
form a sublist of the input names); in particular leads `[A, B, C]` with
B already messaged select `[A, C]` in that order. -/
theorem claim_C8 (leads : List (String × Rest)) (st : Store) :
    selectEligible leads st = leads.filterMap (fun p =>
      match p.2.instagram with
      | some url => if isRestaurantMessaged st p.1 then none else some (p.1, url)
      | none => none) ∧
    List.Sublist ((selectEligible leads st).map Prod.fst) (leads.map Prod.fst) ∧
    selectEligible exLeadsC8 exStoreC8 =
      [("A", "https://instagram.com/a_handle"), ("C", "https://instagram.com/c_handle")] :=
  ⟨selectEligible_eq_filterMap leads st, selectEligible_names_sublist leads st, by decide⟩

/-- Counterexample to claim C9 as stated: in `send-dm.step.ts` an
unreadable or invalid-JSON history file does not degrade to the empty
result — the read fails (the catch block references an undefined
`logger` and throws) instead of returning zero counts and `false`. -/
theorem claim_C9_counterexample :
    getMessageCountsFileStep .corrupt "2026-10-12" 14 ≠ .ok ⟨0, 0⟩ ∧
    isRestaurantMessagedFileStep .corrupt "A" ≠ .ok false := by
  constructor
  · simp [getMessageCountsFileStep]
  · simp [isRestaurantMessagedFileStep]

/-- Claim C9 as amended: in the standalone script every read of the
history file degrades to the empty result (missing file or caught
read/parse error give `false` and zero counts); in the step handler a
missing file still degrades to the empty result, but an unreadable or
invalid-JSON file makes the read itself throw — its catch block
references an undefined `logger` — so the read fails rather than
degrading. -/
theorem claim_C9 (n today : String) (hour : Nat) :
    isRestaurantMessagedFile .missing n = false ∧
    isRestaurantMessagedFile .corrupt n = false ∧
    getMessageCountsFile .missing today hour = ⟨0, 0⟩ ∧
    getMessageCountsFile .corrupt today hour = ⟨0, 0⟩ ∧
    isRestaurantMessagedFileStep .missing n = .ok false ∧
    getMessageCountsFileStep .missing today hour = .ok ⟨0, 0⟩ ∧
    isRestaurantMessagedFileStep .corrupt n = .error .referenceError ∧
    getMessageCountsFileStep .corrupt today hour = .error .referenceError :=
  ⟨rfl, rfl, rfl, rfl, rfl, rfl, rfl, rfl⟩

/-- Total number of names stored across all hour buckets of one day. -/
def sumLens : DayMap → Nat
  | [] => 0
  | (_, ns) :: rest => ns.length + sumLens rest

lemma countsGo_daily (hk : String) (dm : DayMap) (acc : Counts) :
    (countsGo hk dm acc).daily = acc.daily + sumLens dm := by
  induction dm generalizing acc with
  | nil => simp [countsGo, sumLens]
  | cons p rest ih =>
    obtain ⟨k, ns⟩ := p
    simp only [countsGo, sumLens, ih]
    omega

lemma countsGo_hourly_of_none (hk : String) (dm : DayMap) (acc : Counts)
    (h : assocFind dm hk = none) : (countsGo hk dm acc).hourly = acc.hourly := by
  induction dm generalizing acc with
  | nil => rfl
  | cons p rest ih =>
    obtain ⟨k, ns⟩ := p
    by_cases hkeq : k = hk
    · simp [assocFind, hkeq] at h
    · simp only [assocFind, if_neg hkeq] at h
      simp [countsGo, hkeq, ih _ h]

lemma sumLens_ge_of_find (dm : DayMap) (hk : String) (ns : List String)
    (h : assocFind dm hk = some ns) : ns.length ≤ sumLens dm := by
  induction dm with
  | nil => simp [assocFind] at h
  | cons p rest ih =>
    obtain ⟨k, ns'⟩ := p
    by_cases hkeq : k = hk
    · simp only [assocFind, if_pos hkeq, Option.some.injEq] at h
      subst h
      simp [sumLens]
    · simp only [assocFind, if_neg hkeq] at h
      have := ih h
      simp only [sumLens]
      omega

/-- Claim C6: with the stored day having no entry for the current hour
bucket "15h" and 25 sends recorded under "14h", a capacity check at
wall-clock hour 15 reports the hourly count as 0 (so hourlyRemaining is
the full 25), while the daily count still includes the 25 sends — the
lazy reset touches only the hour counter. -/
theorem claim_C6 (st : Store) (today : String) (dm : DayMap) (ns : List String)
    (hday : assocFind st today = some dm)
    (h15 : assocFind dm "15h" = none)
    (h14 : assocFind dm "14h" = some ns)
    (hlen : ns.length = 25) :
    (getMessageCounts st today 15).hourly = 0 ∧
    MAX_HOURLY_MESSAGES - (getMessageCounts st today 15).hourly = 25 ∧
    25 ≤ (getMessageCounts st today 15).daily := by
  have hkey : (toString (15 : Nat) ++ "h") = "15h" := rfl
  have h0 : (getMessageCounts st today 15).hourly = 0 := by
    simp only [getMessageCounts, hday, hkey]
    exact countsGo_hourly_of_none _ _ _ h15
  refine ⟨h0, by rw [h0]; rfl, ?_⟩
  simp only [getMessageCounts, hday, hkey]
  rw [countsGo_daily]
  have := sumLens_ge_of_find dm "14h" ns h14
  omega

/-- Concrete store for the rollover witness: 25 sends recorded on
2026-10-12 under hour bucket "14h". -/
def c6store : Store :=
  [("2026-10-12", [("14h", (List.range 25).map (fun i => "name" ++ toString i))])]

/-- Witness for claim C6 at the concrete store. -/
theorem claim_C6_witness :
    (getMessageCounts c6store "2026-10-12" 15).hourly = 0 ∧
    MAX_HOURLY_MESSAGES - (getMessageCounts c6store "2026-10-12" 15).hourly = 25 ∧
    25 ≤ (getMessageCounts c6store "2026-10-12" 15).daily :=
  claim_C6 c6store "2026-10-12" _ _ rfl rfl rfl (by simp)

/-- Environment where every delivery attempt succeeds and all externals
are healthy. -/
def envAllOk : Env := ⟨fun _ => true, true, true, true⟩

/-- Environment whose Deliverer fails every attempt. -/
def envAlwaysFail : Env := ⟨fun _ => false, true, true, true⟩

/-- Environment where deliveries succeed but every write to the history
file fails (unreachable or corrupt backing store). -/
def envSaveFail : Env := ⟨fun _ => true, false, true, true⟩

/-- Environment where login throws after the browser was initialized. -/
def envNoLogin : Env := ⟨fun _ => true, true, true, false⟩

/-- A deliverable candidate restaurant named A. -/
def restA : Rest := ⟨"A", some "https://instagram.com/handlea"⟩

/-- A deliverable candidate restaurant named B. -/
def restB : Rest := ⟨"B", some "https://instagram.com/handleb"⟩

/-- History with 24 sends already recorded under hour bucket "14h" of
2026-10-12. -/
def c1store : Store :=
  [("2026-10-12", [("14h", (List.range 24).map (fun i => "seed" ++ toString i))])]

/-- Two locations, each with one eligible deliverable candidate. -/
def c1data : List (String × List (String × Rest)) :=
  [("loc1", [("A", restA)]), ("loc2", [("B", restB)])]

/-- Claim C1, evaluated at the failing input: starting from 24 sends
recorded in the current hour bucket, a run over two locations with one
deliverable candidate each records 26 sends in that bucket — above
MAX_HOURLY_MESSAGES = 25 — because the per-location loop restarts
`currentHourlyCount` from the stale pre-run count for every location and
the batch limit is also location-local. -/
theorem claim_C1 :
    MAX_HOURLY_MESSAGES <
      (getMessageCounts (runScript envAllOk "2026-10-12" 14 c1store c1data).final.store
        "2026-10-12" 14).hourly := by decide

/-- One location with a single eligible candidate. -/
def c3data : List (String × List (String × Rest)) := [("loc", [("A", restA)])]

/-- Counterexample to claim C3 as stated: with a Deliverer that always
fails, a run over one candidate makes exactly 2 delivery attempts, not
the claimed 3 — the loop `while (!success && retryCount < 2)` allows a
single retry. -/
theorem claim_C3_counterexample :
    (runScript envAlwaysFail "2026-10-12" 14 [] c3data).final.attempts = 2 ∧
    (runScript envAlwaysFail "2026-10-12" 14 [] c3data).final.attempts ≠ 3 := by decide

/-- Claim C3 as amended: for a candidate that reaches the send step, a
Deliverer that always fails causes exactly 2 total delivery attempts,
after which the loop state is unchanged except for the attempt counter —
no history record is written, no counter is bumped, and the loop is not
stopped, so the run continues with the next candidate. -/
theorem claim_C3 (env : Env) (today hourKey : String) (batchLimit : Nat) (it : LocIter)
    (name : String) (r : Rest) (url : String)
    (hfail : ∀ k, env.deliver k = false)
    (hdm : it.rs.dailyMessageCount < MAX_DAILY_MESSAGES)
    (hstop : it.stopped = false)
    (hchc : it.currentHourlyCount < MAX_HOURLY_MESSAGES)
    (hbl : it.locationDMCount < batchLimit)
    (hig : r.instagram = some url)
    (hmsg : isRestaurantMessaged it.rs.store name = false)
    (hex : (extractInstagramUsername url).isSome) :
    processRestaurant env today hourKey batchLimit it (name, r) =
      { it with rs := { it.rs with attempts := it.rs.attempts + 2 } } := by
  obtain ⟨u, hu⟩ := Option.isSome_iff_exists.mp hex
  have h1 : ¬ MAX_HOURLY_MESSAGES ≤ it.currentHourlyCount := Nat.not_le.mpr hchc
  have h2 : ¬ batchLimit ≤ it.locationDMCount := Nat.not_le.mpr hbl
  have h3 : ¬ MAX_DAILY_MESSAGES ≤ it.rs.dailyMessageCount := Nat.not_le.mpr hdm
  simp [processRestaurant, hstop, h1, h2, hig, hmsg, hu, sendWithRetries, sendMessage,
    h3, hfail]

/-- Fresh loop state: empty history, counters at zero. -/
def itFresh : LocIter := ⟨⟨[], 0, 0⟩, 0, 0, false⟩

/-- Witness for claim C3 at a concrete state and candidate. -/
theorem claim_C3_witness :
    processRestaurant envAlwaysFail "2026-10-12" "14h" 25 itFresh ("A", restA) =
      { itFresh with rs := { itFresh.rs with attempts := itFresh.rs.attempts + 2 } } :=
  claim_C3 envAlwaysFail "2026-10-12" "14h" 25 itFresh "A" restA
    "https://instagram.com/handlea" (fun _ => rfl) (by decide) rfl (by decide) (by decide)
    rfl rfl (by decide)

/-- Counterexample to claim C4 as stated: a candidate whose two delivery
attempts both fail consumes no hourly or daily budget at all — after the
run the stored counts are still 0, not 1, so quota is not reserved at
attempt time. -/
theorem claim_C4_counterexample :
    (runScript envAlwaysFail "2026-10-12" 14 [] c3data).final.attempts = 2 ∧
    (getMessageCounts (runScript envAlwaysFail "2026-10-12" 14 [] c3data).final.store
      "2026-10-12" 14).hourly = 0 ∧
    (getMessageCounts (runScript envAlwaysFail "2026-10-12" 14 [] c3data).final.store
      "2026-10-12" 14).daily = 0 := by decide

/-- Claim C4 as amended: quota is consumed at success time, not attempt
time — a candidate whose delivery succeeds (on the first attempt, or on
the retry after a failed first attempt) adds exactly one history record
(one unit of hourly and daily count) and bumps the location counters by
one, while a candidate whose two attempts both fail leaves the history
and every counter unchanged.  The three branches cover every Deliverer
outcome for the candidate. -/
theorem claim_C4 (env : Env) (today hourKey : String) (batchLimit : Nat) (it : LocIter)
    (name : String) (r : Rest) (url : String)
    (hdm : it.rs.dailyMessageCount < MAX_DAILY_MESSAGES)
    (hstop : it.stopped = false)
    (hchc : it.currentHourlyCount < MAX_HOURLY_MESSAGES)
    (hbl : it.locationDMCount < batchLimit)
    (hig : r.instagram = some url)
    (hmsg : isRestaurantMessaged it.rs.store name = false)
    (hex : (extractInstagramUsername url).isSome)
    (hrec : env.recordOk = true) :
    (env.deliver it.rs.attempts = true →
      processRestaurant env today hourKey batchLimit it (name, r) =
        { rs := { store := recordMessaged it.rs.store today hourKey name
                  dailyMessageCount := it.rs.dailyMessageCount + 1
                  attempts := it.rs.attempts + 1 }
          locationDMCount := it.locationDMCount + 1
          currentHourlyCount := it.currentHourlyCount + 1
          stopped := false }) ∧
    (env.deliver it.rs.attempts = false → env.deliver (it.rs.attempts + 1) = true →
      processRestaurant env today hourKey batchLimit it (name, r) =
        { rs := { store := recordMessaged it.rs.store today hourKey name
                  dailyMessageCount := it.rs.dailyMessageCount + 1
                  attempts := it.rs.attempts + 2 }
          locationDMCount := it.locationDMCount + 1
          currentHourlyCount := it.currentHourlyCount + 1
          stopped := false }) ∧
    (env.deliver it.rs.attempts = false → env.deliver (it.rs.attempts + 1) = false →
      processRestaurant env today hourKey batchLimit it (name, r) =
        { it with rs := { it.rs with attempts := it.rs.attempts + 2 } }) := by
  obtain ⟨u, hu⟩ := Option.isSome_iff_exists.mp hex
  have h1 : ¬ MAX_HOURLY_MESSAGES ≤ it.currentHourlyCount := Nat.not_le.mpr hchc
  have h2 : ¬ batchLimit ≤ it.locationDMCount := Nat.not_le.mpr hbl
  have h3 : ¬ MAX_DAILY_MESSAGES ≤ it.rs.dailyMessageCount := Nat.not_le.mpr hdm
  refine ⟨?_, ?_, ?_⟩
  · intro hd1
    simp [processRestaurant, hstop, h1, h2, hig, hmsg, hu, sendWithRetries, sendMessage,
      h3, hd1, saveMessagedRestaurant, hrec]
  · intro hd1 hd2
    simp [processRestaurant, hstop, h1, h2, hig, hmsg, hu, sendWithRetries, sendMessage,
      h3, hd1, hd2, saveMessagedRestaurant, hrec]
  · intro hd1 hd2
    simp [processRestaurant, hstop, h1, h2, hig, hmsg, hu, sendWithRetries, sendMessage,
      h3, hd1, hd2]

/-- Deliveries fail on the run's first attempt and succeed on its
second. -/
def envSecondTry : Env := ⟨fun k => k == 1, true, true, true⟩

/-- Witness for claim C4, exercising the fail-then-succeed branch at a
concrete state: the candidate still consumes exactly one unit. -/
theorem claim_C4_witness :
    processRestaurant envSecondTry "2026-10-12" "14h" 25 itFresh ("A", restA) =
      { rs := { store := recordMessaged itFresh.rs.store "2026-10-12" "14h" "A"
                dailyMessageCount := itFresh.rs.dailyMessageCount + 1
                attempts := itFresh.rs.attempts + 2 }
        locationDMCount := itFresh.locationDMCount + 1
        currentHourlyCount := itFresh.currentHourlyCount + 1
        stopped := false } :=
  (claim_C4 envSecondTry "2026-10-12" "14h" 25 itFresh "A" restA
    "https://instagram.com/handlea" (by decide) rfl (by decide) (by decide) rfl rfl
    (by decide) rfl).2.1 rfl rfl

/-- One location with two eligible candidates A and B. -/
def c5data : List (String × List (String × Rest)) :=
  [("loc", [("A", restA), ("B", restB)])]

/-- Counterexample to claim C5 as stated: with every history write
failing, a run over candidates A then B still makes 2 delivery attempts —
after A's successful send could not be recorded, the run did not abort
but went on to attempt B, and the history is left empty. -/
theorem claim_C5_counterexample :
    (runScript envSaveFail "2026-10-12" 14 [] c5data).final.attempts = 2 ∧
    (runScript envSaveFail "2026-10-12" 14 [] c5data).final.store = [] := by decide

/-- Claim C5 as amended: a persistence failure while recording a
successful send is not fatal to the run in either implementation.  In the
standalone script the error is caught and logged inside
`saveMessagedRestaurant`, and the loop goes on with the counters still
bumped (first two conjuncts: success on the first attempt or on the
retry).  In the step handler the save call throws (its catch references
an undefined `logger`), the error is absorbed by the per-candidate catch
and the `successCount` and `hourlyCount` bumps after the call are
skipped (third conjunct).  In both, the history is left unchanged —
the send unrecorded — and the loop is not stopped, so the run proceeds
to the next candidate. -/
theorem claim_C5 (env : Env) (today hourKey : String) (batchLimit : Nat) (it : LocIter)
    (name : String) (r : Rest) (url : String) (hst : HState) (cand : String × String)
    (hdm : it.rs.dailyMessageCount < MAX_DAILY_MESSAGES)
    (hstop : it.stopped = false)
    (hchc : it.currentHourlyCount < MAX_HOURLY_MESSAGES)
    (hbl : it.locationDMCount < batchLimit)
    (hig : r.instagram = some url)
    (hmsg : isRestaurantMessaged it.rs.store name = false)
    (hex : (extractInstagramUsername url).isSome)
    (hrec : env.recordOk = false)
    (hstop2 : hst.stopped = false)
    (hhc2 : hst.hourlyCount < MAX_HOURLY_MESSAGES)
    (hex2 : (extractInstagramUsernameStep cand.2).isSome)
    (hdel2 : env.deliver hst.attempts = true) :
    (env.deliver it.rs.attempts = true →
      processRestaurant env today hourKey batchLimit it (name, r) =
        { rs := { store := it.rs.store
                  dailyMessageCount := it.rs.dailyMessageCount + 1
                  attempts := it.rs.attempts + 1 }
          locationDMCount := it.locationDMCount + 1
          currentHourlyCount := it.currentHourlyCount + 1
          stopped := false }) ∧
    (env.deliver it.rs.attempts = false → env.deliver (it.rs.attempts + 1) = true →
      processRestaurant env today hourKey batchLimit it (name, r) =
        { rs := { store := it.rs.store
                  dailyMessageCount := it.rs.dailyMessageCount + 1
                  attempts := it.rs.attempts + 2 }
          locationDMCount := it.locationDMCount + 1
          currentHourlyCount := it.currentHourlyCount + 1
          stopped := false }) ∧
    handlerStep env today hourKey hst cand = { hst with attempts := hst.attempts + 1 } := by
  obtain ⟨u, hu⟩ := Option.isSome_iff_exists.mp hex
  obtain ⟨u2, hu2⟩ := Option.isSome_iff_exists.mp hex2
  have h1 : ¬ MAX_HOURLY_MESSAGES ≤ it.currentHourlyCount := Nat.not_le.mpr hchc
  have h2 : ¬ batchLimit ≤ it.locationDMCount := Nat.not_le.mpr hbl
  have h3 : ¬ MAX_DAILY_MESSAGES ≤ it.rs.dailyMessageCount := Nat.not_le.mpr hdm
  have h4 : ¬ MAX_HOURLY_MESSAGES ≤ hst.hourlyCount := Nat.not_le.mpr hhc2
  refine ⟨?_, ?_, ?_⟩
  · intro hd1
    simp [processRestaurant, hstop, h1, h2, hig, hmsg, hu, sendWithRetries, sendMessage,
      h3, hd1, saveMessagedRestaurant, hrec]
  · intro hd1 hd2
    simp [processRestaurant, hstop, h1, h2, hig, hmsg, hu, sendWithRetries, sendMessage,
      h3, hd1, hd2, saveMessagedRestaurant, hrec]
  · simp [handlerStep, hstop2, h4, hu2, sendMessageStep, hdel2,
      saveMessagedRestaurantStep, hrec]

/-- Fresh step-handler loop state: empty history, counters at zero. -/
def hFresh : HState := ⟨[], 0, 0, 0, false⟩

/-- Witness for claim C5 at concrete states: the script-side candidate
continues with the send unrecorded, and the handler-side candidate's
counter bumps are skipped while the loop continues. -/
theorem claim_C5_witness :
    processRestaurant envSaveFail "2026-10-12" "14h" 25 itFresh ("A", restA) =
      { rs := { store := itFresh.rs.store
                dailyMessageCount := itFresh.rs.dailyMessageCount + 1
                attempts := itFresh.rs.attempts + 1 }
        locationDMCount := itFresh.locationDMCount + 1
        currentHourlyCount := itFresh.currentHourlyCount + 1
        stopped := false } ∧
    handlerStep envSaveFail "2026-10-12" "14h" hFresh
        ("A", "https://instagram.com/handlea") =
      { hFresh with attempts := hFresh.attempts + 1 } :=
  ⟨(claim_C5 envSaveFail "2026-10-12" "14h" 25 itFresh "A" restA
      "https://instagram.com/handlea" hFresh ("A", "https://instagram.com/handlea")
      (by decide) rfl (by decide) (by decide) rfl rfl (by decide) rfl rfl (by decide)
      (by decide) rfl).1 rfl,
   (claim_C5 envSaveFail "2026-10-12" "14h" 25 itFresh "A" restA
      "https://instagram.com/handlea" hFresh ("A", "https://instagram.com/handlea")
      (by decide) rfl (by decide) (by decide) rfl rfl (by decide) rfl rfl (by decide)
      (by decide) rfl).2.2⟩

/-- Counterexample to claim C7 as stated: in the standalone script, a
login error thrown after the browser was initialized ends the run with
the browser still open — `instagram.close()` is only reached on normal
completion. -/
theorem claim_C7_counterexample :
    (runScript envNoLogin "2026-10-12" 14 [] c1data).leakedBrowser = true ∧
    (runScript envNoLogin "2026-10-12" 14 [] c1data).crashed = true := by decide

/-- Claim C7 as amended: the event-step handler closes the browser on
every exit path (its `finally` block) — early limit returns, empty
candidate list, init or login failure, and normal completion — for every
environment, with no assumption on the externals; the standalone script
ends with the browser released only when no error is thrown after
initialization (here: when login succeeds). -/
theorem claim_C7 (env : Env) (loc today : String) (hour : Nat) (store0 : Store)
    (all data : List (String × List (String × Rest))) :
    (runHandler env loc today hour store0 all).browserClosed = true ∧
    (env.loginOk = true → (runScript env today hour store0 data).leakedBrowser = false) := by
  constructor
  · simp only [runHandler]
    repeat' split <;> try rfl
  · intro hlogin
    simp only [runScript]
    repeat' split <;> simp_all

/-- Witness for claim C7: the handler's browser is closed even on its
login-failure exit path (a nonempty candidate list with login throwing),
and the script releases it on a healthy environment. -/
theorem claim_C7_witness :
    (runHandler envNoLogin "loc1" "2026-10-12" 14 [] c1data).browserClosed = true ∧
    (runScript envAllOk "2026-10-12" 14 [] c1data).leakedBrowser = false :=
  ⟨(claim_C7 envNoLogin "loc1" "2026-10-12" 14 [] c1data c1data).1,
   (claim_C7 envAllOk "loc1" "2026-10-12" 14 [] c1data c1data).2 rfl⟩

end SendDM

